import Mathlib

set_option maxHeartbeats 1000000

/-!
Shallow embedding of the pin-lock library (src/lib.rs): a mutual-exclusion
wrapper `PinLock<T>` around `std::sync::Mutex<T>` whose `lock` operation
requires a pinned reference to the container and hands back a guard exposing
a read-only dereference and a pinned mutable reference via `as_mut`.

Stateful Rust code is modelled by explicit state passing. A `Pin<&PinLock<T>>`
is modelled as the pointed-to container together with the fixed memory address
of the contained value that the pin guarantees; a panic (the `unwrap()` in
`PinLock::lock`) is modelled as `Option.none`.
-/

/-- Model of std::sync::Mutex as used by src/lib.rs: the protected data
together with the poison flag that is set when a holder terminates abnormally
while holding the lock. -/
structure Mutex (T : Type) : Type where
  data : T
  poisoned : Bool
deriving DecidableEq

/-- Model of std::sync::PoisonError, the error carried by a poisoned lock
result. -/
inductive PoisonError : Type
  | poison

/-- Model of Mutex::lock as called by PinLock::lock: the result is
Err(PoisonError) when the mutex is poisoned, and otherwise Ok with the
MutexGuard, which lends exactly the data owned by the mutex. -/
def Mutex.lock {T : Type} (m : Mutex T) : Except PoisonError T :=
  if m.poisoned then Except.error PoisonError.poison else Except.ok m.data

/-- pub struct PinLock<T> { inner: Mutex<T> } (src/lib.rs). -/
structure PinLock (T : Type) : Type where
  inner : Mutex T
deriving DecidableEq

/-- PinLock::new (src/lib.rs): wraps the value in a fresh, unpoisoned mutex. -/
def PinLock.new {T : Type} (value : T) : PinLock T :=
  { inner := { data := value, poisoned := false } }

/-- src/lib.rs contains no impl Drop for PinLock; the pin-projection comment
inside PinLock::lock relies on exactly this fact. -/
def PinLock.hasDropImpl : Bool := false

/-- A pinned shared reference Pin<&'a PinLock<T>>: the pointee together with
the address of the contained value, which the pin guarantees to be fixed for
the rest of the container's lifetime. -/
structure PinRef (T : Type) : Type where
  pointee : PinLock T
  addr : Nat
deriving DecidableEq

/-- pub struct PinLockGuard<'a, T> { inner: Pin<MutexGuard<'a, T>> }
(src/lib.rs): the guard exclusively borrows the mutex's data, which lives at
the pinned address of the container it was acquired from. -/
structure PinLockGuard (T : Type) : Type where
  data : T
  addr : Nat
deriving DecidableEq

/-- PinLock::lock (src/lib.rs), self: Pin<&'a Self>: calls
Pin::get_ref(self).inner.lock().unwrap() and pin-projects the MutexGuard.
unwrap panics on a poisoned mutex, modelled as none; otherwise the returned
guard borrows the protected value at the container's pinned address. -/
def PinRef.lock {T : Type} (p : PinRef T) : Option (PinLockGuard T) :=
  match p.pointee.inner.lock with
  | Except.ok d => some { data := d, addr := p.addr }
  | Except.error _ => none

/-- impl Deref for PinLockGuard (src/lib.rs): deref(&self) returns
&self.inner, an immutable view of the contained value. -/
def PinLockGuard.deref {T : Type} (g : PinLockGuard T) : T :=
  g.data

/-- The pinned mutable reference Pin<&'b mut T> handed out by
PinLockGuard::as_mut: its referent and the referent's address. -/
structure PinMut (T : Type) : Type where
  data : T
  addr : Nat
deriving DecidableEq

/-- PinLockGuard::as_mut (src/lib.rs), self: &'b mut PinLockGuard<'a, T>:
returns self.inner.as_mut(), a pinned mutable reference to the very value the
guard borrows, at the same address. -/
def PinLockGuard.as_mut {T : Type} (g : PinLockGuard T) : PinMut T :=
  { data := g.data, addr := g.addr }

/-- Writing a value through the Pin<&'b mut T> obtained from as_mut: the
borrowed value is updated in place; a pinned write cannot relocate the value,
so the address is unchanged. -/
def PinLockGuard.writeAsMut {T : Type} (g : PinLockGuard T) (x : T) : PinLockGuard T :=
  { data := x, addr := g.addr }

/-- Dropping the guard (the implicit Drop of the wrapped MutexGuard): the
mutex is unlocked and afterwards owns whatever value the guard's borrow
holds; the container and its pinned address are untouched. -/
def PinLockGuard.drop {T : Type} (g : PinLockGuard T) (p : PinRef T) : PinRef T :=
  { pointee := { inner := { data := g.data, poisoned := p.pointee.inner.poisoned } },
    addr := p.addr }

/-- One full acquire / mutate-through-as_mut / release cycle on a pinned
container (none when the acquisition panics on poison). -/
def PinRef.cycle {T : Type} (p : PinRef T) (f : T → T) : Option (PinRef T) :=
  (p.lock).map fun g => (g.writeAsMut (f g.deref)).drop p

/-- Arbitrarily many acquire/release cycles on the same pinned container. -/
def PinRef.cycles {T : Type} (p : PinRef T) : List (T → T) → Option (PinRef T)
  | [] => some p
  | f :: fs => (p.cycle f).bind fun q => q.cycles fs

/-- The public interface of src/lib.rs: PinLock::new, PinLock::lock, the
guard's Deref impl, and PinLockGuard::as_mut. Nothing else is public. -/
inductive PublicItem : Type
  | new
  | lock
  | deref
  | as_mut
deriving DecidableEq

/-- Whether a public item's signature in src/lib.rs hands back mutable access
to the contained T: new returns the container by value, lock returns the
guard, Deref::deref returns &T, and as_mut returns Pin<&'b mut T>. -/
def yieldsMutAccess : PublicItem → Bool
  | PublicItem.as_mut => true
  | _ => false

/-- The receiver mode of each public item, read off the signatures in
src/lib.rs: new has no receiver, lock takes self: Pin<&'a Self>, deref takes
&self, and as_mut takes self: &'b mut PinLockGuard<'a, T>. -/
inductive Receiver : Type
  | noSelf
  | pinnedShared
  | shared
  | mutBorrow
deriving DecidableEq

/-- Receiver of each public item of src/lib.rs. -/
def receiverOf : PublicItem → Receiver
  | PublicItem.new => Receiver.noSelf
  | PublicItem.lock => Receiver.pinnedShared
  | PublicItem.deref => Receiver.shared
  | PublicItem.as_mut => Receiver.mutBorrow

/-- Lock state of one container. -/
inductive LockState : Type
  | unlocked
  | locked
deriving DecidableEq, Fintype

/-- Events on one container: the lock-relevant public operations plus guard
destruction. The interface has no explicit unlock member, so no such event
exists. -/
inductive Event : Type
  | callLock
  | callDeref
  | callAsMut
  | guardDrop
deriving DecidableEq, Fintype

/-- Effect of each event on the lock state, read off src/lib.rs: lock blocks
until the mutex is free and completes to the locked state; deref and as_mut
require a live guard and keep it live; dropping the guard unlocks the mutex. -/
def lockStep : Event → LockState → Option LockState
  | Event.callLock, LockState.unlocked => some LockState.locked
  | Event.callLock, LockState.locked => none
  | Event.callDeref, LockState.locked => some LockState.locked
  | Event.callAsMut, LockState.locked => some LockState.locked
  | Event.guardDrop, LockState.locked => some LockState.unlocked
  | _, LockState.unlocked => none

/-- Global state of the concurrent counter scenario: the thread currently
holding the guard (at most one, as granted by the mutex) together with the
counter value it observed through the guard, the shared counter protected by
the PinLock, and how many increments each of the n threads still owes. -/
structure CounterState (n : Nat) : Type where
  holder : Option (Fin n × Nat)
  counter : Nat
  remaining : Fin n → Nat

/-- One interleaving step of the counter scenario. Acquisition succeeds only
when no guard is live (the mutex's exclusivity); a holding thread writes the
successor of the value it read through the guard and releases by dropping the
guard. -/
inductive CounterStep (n : Nat) : CounterState n → CounterState n → Prop
  | acquire (s : CounterState n) (i : Fin n) :
      s.holder = none → s.remaining i ≠ 0 →
      CounterStep n s
        { holder := some (i, s.counter), counter := s.counter,
          remaining := s.remaining }
  | release (s : CounterState n) (i : Fin n) (r : Nat) :
      s.holder = some (i, r) →
      CounterStep n s
        { holder := none, counter := r + 1,
          remaining := Function.update s.remaining i (s.remaining i - 1) }

/-- Initial state of the scenario: no guard live, counter 0, every thread
owes m increments. -/
def counterInitState (n m : Nat) : CounterState n :=
  { holder := none, counter := 0, remaining := fun _ => m }

/-- Invariant of the counter scenario: whatever value a holder read is still
the current counter (nobody else can write while the guard is live), a holder
still owes at least one increment, and the counter plus all owed increments
is constant. -/
def counterInv (n total : Nat) (s : CounterState n) : Prop :=
  (∀ i r, s.holder = some (i, r) → r = s.counter ∧ s.remaining i ≠ 0) ∧
  s.counter + Finset.univ.sum s.remaining = total

/-! Helper lemmas shared by several theorems. -/

/-- Locking an unpoisoned pinned container yields a guard holding the mutex's
data at the container's pinned address. -/
theorem PinRef.lock_of_not_poisoned {T : Type} (p : PinRef T)
    (h : p.pointee.inner.poisoned = false) :
    p.lock = some { data := p.pointee.inner.data, addr := p.addr } := by
  simp [PinRef.lock, Mutex.lock, h]

/-- Locking a poisoned pinned container panics. -/
theorem PinRef.lock_of_poisoned {T : Type} (p : PinRef T)
    (h : p.pointee.inner.poisoned = true) :
    p.lock = none := by
  simp [PinRef.lock, Mutex.lock, h]

/-- A successful lock hands out a guard at the container's pinned address. -/
theorem PinRef.lock_addr {T : Type} (p : PinRef T) (g : PinLockGuard T)
    (h : p.lock = some g) : g.addr = p.addr := by
  unfold PinRef.lock at h
  cases hm : p.pointee.inner.lock with
  | ok d => rw [hm] at h; cases h; rfl
  | error e => rw [hm] at h; cases h

/-- One acquire/release cycle preserves the pinned address. -/
theorem PinRef.cycle_addr {T : Type} (p q : PinRef T) (f : T → T)
    (h : p.cycle f = some q) : q.addr = p.addr := by
  unfold PinRef.cycle at h
  cases hl : p.lock with
  | none => rw [hl] at h; cases h
  | some g => rw [hl] at h; cases h; rfl

/-- Any number of acquire/release cycles preserves the pinned address. -/
theorem PinRef.cycles_addr {T : Type} (fs : List (T → T)) (p q : PinRef T)
    (h : p.cycles fs = some q) : q.addr = p.addr := by
  induction fs generalizing p with
  | nil =>
      unfold PinRef.cycles at h
      cases h; rfl
  | cons f fs ih =>
      unfold PinRef.cycles at h
      cases hc : p.cycle f with
      | none => rw [hc] at h; cases h
      | some r =>
          rw [hc] at h
          simp only [Option.some_bind] at h
          exact (ih r h).trans (PinRef.cycle_addr p r f hc)

/-! Theorems for the claims. -/

/-- C1: for every value v (and wherever the caller pins the fresh container),
new(v) followed by lock followed by the guard's dereference observes exactly
v: the dereference is an immutable read of the contained value. -/
theorem new_lock_deref {T : Type} (v : T) (a : Nat) :
    (PinRef.lock { pointee := PinLock.new v, addr := a }).map PinLockGuard.deref
      = some v := rfl

/-- C2: on any unpoisoned pinned container, acquiring, writing x through the
guard's as_mut reference, dropping the guard and acquiring again yields a
guard that observes x: the mutation persists across release/reacquire. -/
theorem mutation_persists {T : Type} (p : PinRef T) (x : T)
    (h : p.pointee.inner.poisoned = false) :
    ∃ g, p.lock = some g ∧
      ∃ g2, (PinLockGuard.drop (g.writeAsMut x) p).lock = some g2 ∧ g2.deref = x := by
  refine ⟨_, PinRef.lock_of_not_poisoned p h, ?_⟩
  refine ⟨_, PinRef.lock_of_not_poisoned _ ?_, rfl⟩
  exact h

/-- Witness for C2 at a concrete input: a counter initialised to 0, pinned at
address 7, mutated to 5. -/
theorem mutation_persists_witness :
    ∃ g, (PinRef.mk (PinLock.new 0) 7).lock = some g ∧
      ∃ g2, (PinLockGuard.drop (g.writeAsMut 5) (PinRef.mk (PinLock.new 0) 7)).lock
          = some g2 ∧ g2.deref = 5 :=
  mutation_persists (PinRef.mk (PinLock.new 0) 7) 5 rfl

/-- C3: when the mutex is poisoned, lock does not return a recoverable error:
the unwrap panics at the point of acquisition (modelled as none); and this is
the single error condition: on an unpoisoned mutex, lock always yields a
guard. -/
theorem lock_poison_fatal {T : Type} (p : PinRef T) :
    (p.pointee.inner.poisoned = true → p.lock = none) ∧
    (p.pointee.inner.poisoned = false → ∃ g, p.lock = some g) :=
  ⟨fun h => PinRef.lock_of_poisoned p h,
   fun h => ⟨_, PinRef.lock_of_not_poisoned p h⟩⟩

/-- Witness for C3 at a concrete input: a poisoned mutex containing 0. -/
theorem lock_poison_fatal_witness :
    (PinRef.mk (PinLock.mk (Mutex.mk 0 true)) 3).lock = none :=
  (lock_poison_fatal (PinRef.mk (PinLock.mk (Mutex.mk 0 true)) 3)).1 rfl

/-- C4: as_mut is the only item of the public interface whose signature
yields mutable access to the contained value; its receiver is the mutable
borrow of the guard itself, and the Pin reference it returns refers to the
guard's own value at its pinned address. -/
theorem as_mut_only_mut_access (T : Type) :
    (∀ item, yieldsMutAccess item = true ↔ item = PublicItem.as_mut) ∧
    receiverOf PublicItem.as_mut = Receiver.mutBorrow ∧
    (∀ g : PinLockGuard T, (g.as_mut).data = g.deref ∧ (g.as_mut).addr = g.addr) := by
  refine ⟨?_, rfl, fun g => ⟨rfl, rfl⟩⟩
  intro item
  cases item <;> simp [yieldsMutAccess]

/-- Witness for C4 at a concrete input. -/
theorem as_mut_only_mut_access_witness :
    yieldsMutAccess PublicItem.lock = true ↔ PublicItem.lock = PublicItem.as_mut :=
  (as_mut_only_mut_access Nat).1 PublicItem.lock

/-- C5: over arbitrarily many acquire/release cycles on the same pinned
container, the address of the contained value never changes. -/
theorem addr_stable {T : Type} (fs : List (T → T)) (p q : PinRef T)
    (h : p.cycles fs = some q) : q.addr = p.addr :=
  PinRef.cycles_addr fs p q h

/-- Witness for C5 at a concrete input: two increment cycles on a counter
pinned at address 7. -/
theorem addr_stable_witness :
    (PinRef.mk (PinLock.mk (Mutex.mk 2 false)) 7).addr
      = (PinRef.mk (PinLock.new 0) 7).addr :=
  addr_stable [fun n => n + 1, fun n => n + 1]
    (PinRef.mk (PinLock.new 0) 7) (PinRef.mk (PinLock.mk (Mutex.mk 2 false)) 7)
    (by decide)

/-- C9: the guard's dereference and its as_mut reference expose the same
contained value: as_mut reads exactly what deref reads, and a write through
as_mut is observed by a subsequent deref on the same guard. -/
theorem deref_as_mut_same_value (T : Type) (g : PinLockGuard T) (x : T) :
    (g.as_mut).data = g.deref ∧ (g.writeAsMut x).deref = x :=
  ⟨rfl, rfl⟩

/-- C10: acquiring the lock never changes the protected value: the guard a
successful lock returns observes exactly the value the mutex contained before
the call, and the container itself is only read through the shared pinned
reference. -/
theorem lock_preserves_value {T : Type} (p : PinRef T) (g : PinLockGuard T)
    (h : p.lock = some g) : g.deref = p.pointee.inner.data := by
  unfold PinRef.lock at h
  cases hm : p.pointee.inner.lock with
  | ok d =>
      rw [hm] at h
      cases h
      unfold Mutex.lock at hm
      cases hp : p.pointee.inner.poisoned with
      | true => rw [hp] at hm; cases hm
      | false => rw [hp] at hm; cases hm; rfl
  | error e => rw [hm] at h; cases h

/-- Witness for C10 at a concrete input. -/
theorem lock_preserves_value_witness :
    (PinLockGuard.mk 4 9).deref = (PinRef.mk (PinLock.new 4) 9).pointee.inner.data :=
  lock_preserves_value (PinRef.mk (PinLock.new 4) 9) (PinLockGuard.mk 4 9) rfl

/-- C7: PinLock declares no Drop impl, and no operation of the public
interface relocates the contained value: a successful lock hands out the
guard at the container's pinned address, as_mut and writes through it keep
that address, dropping the guard leaves the container's address unchanged,
and hence any sequence of acquire/release cycles preserves it. -/
theorem no_drop_no_relocation (T : Type) :
    PinLock.hasDropImpl = false ∧
    (∀ (p : PinRef T) (g : PinLockGuard T), p.lock = some g → g.addr = p.addr) ∧
    (∀ (g : PinLockGuard T) (x : T),
      (g.as_mut).addr = g.addr ∧ (g.writeAsMut x).addr = g.addr) ∧
    (∀ (g : PinLockGuard T) (p : PinRef T), (g.drop p).addr = p.addr) ∧
    (∀ (fs : List (T → T)) (p q : PinRef T), p.cycles fs = some q → q.addr = p.addr) := by
  refine ⟨rfl, ?_, fun g x => ⟨rfl, rfl⟩, fun g p => rfl, PinRef.cycles_addr⟩
  exact PinRef.lock_addr

/-- Witness for C7 at a concrete input: the guard produced by locking a
container pinned at address 7 sits at address 7. -/
theorem no_drop_no_relocation_witness :
    (PinLockGuard.mk 0 7).addr = (PinRef.mk (PinLock.new 0) 7).addr :=
  (no_drop_no_relocation Nat).2.1 (PinRef.mk (PinLock.new 0) 7)
    (PinLockGuard.mk 0 7) (by decide)

/-- C8: the container's lock-state machine is exactly
unlocked → lock → locked → guard destroyed → unlocked: the only transition
that changes the state is either a completed lock call from unlocked to
locked or the guard's destruction from locked back to unlocked; in
particular the only way back to unlocked is dropping the guard, and no
explicit unlock event exists in the interface. -/
theorem lock_state_machine :
    (∀ e s t, lockStep e s = some t → s ≠ t →
      (s = LockState.unlocked ∧ t = LockState.locked ∧ e = Event.callLock) ∨
      (s = LockState.locked ∧ t = LockState.unlocked ∧ e = Event.guardDrop)) ∧
    lockStep Event.callLock LockState.unlocked = some LockState.locked ∧
    lockStep Event.guardDrop LockState.locked = some LockState.unlocked := by
  decide

/-- Witness for C8 at a concrete input: dropping the guard is a transition
from locked to unlocked. -/
theorem lock_state_machine_witness :
    (LockState.locked = LockState.unlocked ∧ LockState.unlocked = LockState.locked ∧
        Event.guardDrop = Event.callLock) ∨
      (LockState.locked = LockState.locked ∧ LockState.unlocked = LockState.unlocked ∧
        Event.guardDrop = Event.guardDrop) :=
  lock_state_machine.1 Event.guardDrop LockState.locked LockState.unlocked
    (by decide) (by decide)

/-- A counter-scenario step preserves the invariant. -/
theorem counterStep_inv {n total : Nat} {s t : CounterState n}
    (hs : counterInv n total s) (h : CounterStep n s t) : counterInv n total t := by
  cases h with
  | acquire i hnone hrem =>
      refine ⟨?_, hs.2⟩
      intro j r hj
      simp only [Option.some.injEq, Prod.mk.injEq] at hj
      rcases hj with ⟨hij, hr⟩
      exact ⟨hr.symm, hij ▸ hrem⟩
  | release i r hold =>
      rcases hs.1 i r hold with ⟨hr, hrem⟩
      refine ⟨?_, ?_⟩
      · intro j r2 hj
        cases hj
      have h1 : Finset.univ.sum (Function.update s.remaining i (s.remaining i - 1))
          = (s.remaining i - 1) + (Finset.univ.erase i).sum s.remaining := by
        rw [Finset.sum_update_of_mem (Finset.mem_univ i)]
        rw [Finset.sdiff_singleton_eq_erase]
      have h2 : s.remaining i + (Finset.univ.erase i).sum s.remaining
          = Finset.univ.sum s.remaining :=
        Finset.add_sum_erase Finset.univ s.remaining (Finset.mem_univ i)
      have h3 := hs.2
      simp only [h1]
      omega

/-- The initial state of the scenario satisfies the invariant with total
budget n * m. -/
theorem counterInitState_inv (n m : Nat) :
    counterInv n (n * m) (counterInitState n m) := by
  constructor
  · intro i r hj
    cases hj
  · simp [counterInitState, Finset.sum_const, Finset.card_univ, Nat.mul_comm]

/-- Every reachable state of the scenario satisfies the invariant. -/
theorem counter_reachable_inv {n m : Nat} {s : CounterState n}
    (h : Relation.ReflTransGen (CounterStep n) (counterInitState n m) s) :
    counterInv n (n * m) s := by
  induction h with
  | refl => exact counterInitState_inv n m
  | tail hab hbc ih => exact counterStep_inv ih hbc

/-- C6: mutual exclusion is built into the scenario (the mutex grants at most
one holder, and acquisition requires that no guard be live); for every
interleaving of n threads each performing m guarded increments, once every
thread has finished its increments the shared counter is exactly n * m: no
update is lost. -/
theorem counter_no_lost_updates (n m : Nat) (s : CounterState n)
    (h : Relation.ReflTransGen (CounterStep n) (counterInitState n m) s)
    (hdone : ∀ i, s.remaining i = 0) : s.counter = n * m := by
  have hinv := counter_reachable_inv h
  have hsum : Finset.univ.sum s.remaining = 0 :=
    Finset.sum_eq_zero fun i _ => hdone i
  have h2 := hinv.2
  omega

/-- Witness for C6 at a concrete input: one thread, one increment; the trace
acquires and releases once and ends with the counter at 1 * 1. -/
theorem counter_no_lost_updates_witness :
    (CounterState.mk (n := 1) none 1
        (Function.update (fun _ => 1) (0 : Fin 1) ((fun _ : Fin 1 => 1) 0 - 1))).counter
      = 1 * 1 :=
  counter_no_lost_updates 1 1 _
    (Relation.ReflTransGen.tail
      (Relation.ReflTransGen.tail Relation.ReflTransGen.refl
        (CounterStep.acquire (counterInitState 1 1) 0 rfl (by decide)))
      (CounterStep.release
        (CounterState.mk (some ((0 : Fin 1), 0)) 0 (fun _ => 1)) 0 0 rfl))
    (by decide)
